import Mathlib

/-!
Verification of the scenario-evaluator core of `plot.py`
(`create_interactive_energy_plot` and the window handling in `update_graph`).

The evaluator works on an hourly capacity-factor table with a load column
and per-technology capacity-factor columns (Nuclear as baseload, Solar,
Wind onshore, Wind offshore).  Numeric values are modelled as rationals;
the pandas `.max()` of an empty series (NaN) is modelled as `Option.none`.
-/

namespace EnergyMix

/-- One row of the capacity-factor table `df_cf`: a timestamp (hour index)
plus the load and the per-technology capacity factors for that hour. -/
structure Row where
  time : ℕ
  load : ℚ
  nuclear : ℚ
  solar : ℚ
  windOnshore : ℚ
  windOffshore : ℚ
deriving Repr, DecidableEq

/-- The fixed renewable technology mix weights (`capacities_dict` without
the Nuclear entry, which the evaluator never reads as a weight). -/
structure Weights where
  solar : ℚ
  windOnshore : ℚ
  windOffshore : ℚ
deriving Repr, DecidableEq

/-- `total_load_energy = df_cf_period['Load'].sum()` (plot.py line 42). -/
def total_load_energy (rows : List Row) : ℚ :=
  (rows.map Row.load).sum

/-- `nuclear_cf_sum = df_cf_period['Nuclear'].sum()` (plot.py line 46). -/
def nuclear_cf_sum (rows : List Row) : ℚ :=
  (rows.map Row.nuclear).sum

/-- Sum of the Solar capacity-factor column over the slice. -/
def solar_cf_sum (rows : List Row) : ℚ :=
  (rows.map Row.solar).sum

/-- Sum of the Wind-onshore capacity-factor column over the slice. -/
def wind_onshore_cf_sum (rows : List Row) : ℚ :=
  (rows.map Row.windOnshore).sum

/-- Sum of the Wind-offshore capacity-factor column over the slice. -/
def wind_offshore_cf_sum (rows : List Row) : ℚ :=
  (rows.map Row.windOffshore).sum

/-- `nuclear_installed = nuclear_generation_needed / nuclear_cf_sum if
nuclear_cf_sum > 0 else 0` with
`nuclear_generation_needed = nuclear_fraction * total_load_energy`
(plot.py lines 45-47). -/
def nuclear_installed (nf : ℚ) (rows : List Row) : ℚ :=
  if nuclear_cf_sum rows > 0 then
    nf * total_load_energy rows / nuclear_cf_sum rows
  else 0

/-- `renewable_cf_weighted` (plot.py lines 53-57): the technology-weighted
sum of the renewable capacity-factor column sums. -/
def renewable_cf_weighted (w : Weights) (rows : List Row) : ℚ :=
  w.solar * solar_cf_sum rows +
  w.windOnshore * wind_onshore_cf_sum rows +
  w.windOffshore * wind_offshore_cf_sum rows

/-- `C = renewable_generation_needed / renewable_cf_weighted if
renewable_cf_weighted > 0 else 0` with
`renewable_generation_needed = (1 - nuclear_fraction) * total_load_energy`
(plot.py lines 50, 60). -/
def renewableC (w : Weights) (nf : ℚ) (rows : List Row) : ℚ :=
  if renewable_cf_weighted w rows > 0 then
    (1 - nf) * total_load_energy rows / renewable_cf_weighted w rows
  else 0

/-- `solar_installed = capacities_dict['Solar'] * C` (plot.py line 63). -/
def solar_installed (w : Weights) (nf : ℚ) (rows : List Row) : ℚ :=
  w.solar * renewableC w nf rows

/-- `wind_onshore_installed = capacities_dict['Wind onshore'] * C`
(plot.py line 64). -/
def wind_onshore_installed (w : Weights) (nf : ℚ) (rows : List Row) : ℚ :=
  w.windOnshore * renewableC w nf rows

/-- `wind_offshore_installed = capacities_dict['Wind offshore'] * C`
(plot.py line 65). -/
def wind_offshore_installed (w : Weights) (nf : ℚ) (rows : List Row) : ℚ :=
  w.windOffshore * renewableC w nf rows

/-- The four generation columns of `df_` at one row (plot.py lines 78-81):
capacity factor times installed capacity, per technology, in the column
order Nuclear, Wind offshore, Wind onshore, Solar. -/
def dfColumns (w : Weights) (nf : ℚ) (rows : List Row) (r : Row) : List ℚ :=
  [r.nuclear * nuclear_installed nf rows,
   r.windOffshore * wind_offshore_installed w nf rows,
   r.windOnshore * wind_onshore_installed w nf rows,
   r.solar * solar_installed w nf rows]

/-- One entry of `bess = df_.sum(axis=1) - load` (plot.py line 86). -/
def bessRow (w : Weights) (nf : ℚ) (rows : List Row) (r : Row) : ℚ :=
  (dfColumns w nf rows r).sum - r.load

/-- The hourly net-balance series `bess` over the slice (plot.py line 86). -/
def bess (w : Weights) (nf : ℚ) (rows : List Row) : List ℚ :=
  rows.map (bessRow w nf rows)

/-- Hourly total-generation series `df_.sum(axis=1)` restricted to the four
generation columns. -/
def genTotals (w : Weights) (nf : ℚ) (rows : List Row) : List ℚ :=
  rows.map (fun r => (dfColumns w nf rows r).sum)

/-- The hourly generation profile: for every hour the list of per-technology
generation values capacityFactor × installedCapacity (plot.py lines 78-81). -/
def genProfile (w : Weights) (nf : ℚ) (rows : List Row) : List (List ℚ) :=
  rows.map (fun r => dfColumns w nf rows r)

/-- `df_['Storage potential'] = -bess.clip(lower=0)` (plot.py line 87). -/
def storage_potential (w : Weights) (nf : ℚ) (rows : List Row) : List ℚ :=
  (bess w nf rows).map (fun b => -(max b 0))

/-- `df_['Storage consumption requirement'] = -bess.clip(upper=0)`
(plot.py line 88). -/
def storage_consumption (w : Weights) (nf : ℚ) (rows : List Row) : List ℚ :=
  (bess w nf rows).map (fun b => -(min b 0))

/-- `peak_surplus = bess.clip(lower=0).max()` (plot.py line 91); the pandas
`.max()` of an empty series is NaN, modelled as `none`. -/
def peak_surplus (w : Weights) (nf : ℚ) (rows : List Row) : Option ℚ :=
  ((bess w nf rows).map (fun b => max b 0)).max?

/-- `peak_deficit = (-bess.clip(upper=0)).max()` (plot.py line 92). -/
def peak_deficit (w : Weights) (nf : ℚ) (rows : List Row) : Option ℚ :=
  ((bess w nf rows).map (fun b => -(min b 0))).max?

/-- `battery_capacity = max(peak_surplus, peak_deficit)` (plot.py line 93);
`none` (NaN) exactly when both peaks come from an empty slice. -/
def battery_capacity (w : Weights) (nf : ℚ) (rows : List Row) : Option ℚ :=
  match peak_surplus w nf rows, peak_deficit w nf rows with
  | some s, some d => some (max s d)
  | _, _ => none

/-- Calendar day of a row's hourly timestamp, as `index.date()` does. -/
def dayOf (r : Row) : ℕ := r.time / 24

/-- `max_date = df_cf.index.max().date()` (plot.py line 276). -/
def maxDayOf (table : List Row) : ℕ :=
  ((table.map dayOf).max?).getD 0

/-- `min_date = df_cf.index.min().date()` (plot.py line 275). -/
def minDayOf (table : List Row) : ℕ :=
  ((table.map dayOf).min?).getD 0

/-- `df_cf.loc[start_date:end_date]` (plot.py line 39) with day-resolution
date strings on the sorted hourly index: pandas partial-string slicing keeps
every row whose calendar day lies in `[startDay, endDay]`; an inverted or
non-intersecting window yields an empty frame, never an error. -/
def sliceTable (table : List Row) (startDay endDay : ℕ) : List Row :=
  table.filter (fun r => startDay ≤ dayOf r && dayOf r ≤ endDay)

/-- The window reported by `update_graph` after bounds adjustment. -/
structure ClipResult where
  startDay : ℕ
  endDay : ℕ
  warned : Bool
deriving Repr, DecidableEq

/-- The window-adjustment logic of `update_graph` (plot.py lines 423-441):
`end = start + duration`; if `end` is past `max_date` it is clipped to
`max_date` with a warning; if `start` is before `min_date` it is raised to
`min_date` with a warning. -/
def clipWindow (startDay duration minDay maxDay : ℕ) : ClipResult :=
  let e0 := startDay + duration
  let e := if e0 > maxDay then maxDay else e0
  let warn1 := e0 > maxDay
  let s := if startDay < minDay then minDay else startDay
  let warn := if startDay < minDay then true else warn1
  ⟨s, e, warn⟩

/-- Scaling every capacity-factor column of a row by a constant `k`
(load and timestamp untouched). -/
def scaleCF (k : ℚ) (r : Row) : Row :=
  ⟨r.time, r.load, k * r.nuclear, k * r.solar,
   k * r.windOnshore, k * r.windOffshore⟩

/-- Scaling every capacity-factor column of the whole table by `k`. -/
def scaleTable (k : ℚ) (rows : List Row) : List Row :=
  rows.map (scaleCF k)

/-! ### The worked example of the specification (4 hourly rows) -/

/-- The 4-row example table: load 100 every hour, solar capacity factors
0, 0.5, 1, 0.5, baseload (nuclear) capacity factor 1, wind columns 0. -/
def exampleRows : List Row :=
  [⟨0, 100, 1, 0, 0, 0⟩,
   ⟨1, 100, 1, 1/2, 0, 0⟩,
   ⟨2, 100, 1, 1, 0, 0⟩,
   ⟨3, 100, 1, 1/2, 0, 0⟩]

/-- Technology weights {Solar: 1} (wind shares zero). -/
def exampleWeights : Weights := ⟨1, 0, 0⟩

/-! ### Helper lemmas -/

lemma foldl_max_mem {α : Type*} [LinearOrder α] (x : α) (l : List α) :
    l.foldl max x ∈ x :: l := by
  induction l generalizing x with
  | nil => simp
  | cons y ys ih =>
    have h := ih (max x y)
    simp only [List.foldl_cons]
    rcases max_choice x y with hc | hc <;> rw [hc] at h ⊢ <;>
      simp only [List.mem_cons] at h ⊢ <;> tauto

lemma le_foldl_max {α : Type*} [LinearOrder α] (x : α) (l : List α) :
    x ≤ l.foldl max x ∧ ∀ b ∈ l, b ≤ l.foldl max x := by
  induction l generalizing x with
  | nil => simp
  | cons y ys ih =>
    have h := ih (max x y)
    refine ⟨le_trans (le_max_left x y) h.1, ?_⟩
    intro b hb
    rcases List.mem_cons.mp hb with rfl | hb
    · exact le_trans (le_max_right x b) h.1
    · exact h.2 b hb

/-- On a non-empty list over a linear order, `max?` returns the greatest
element. -/
lemma max?_spec {α : Type*} [LinearOrder α] {l : List α} (h : l ≠ []) :
    ∃ a, l.max? = some a ∧ a ∈ l ∧ ∀ b ∈ l, b ≤ a := by
  cases l with
  | nil => exact absurd rfl h
  | cons x xs =>
    refine ⟨xs.foldl max x, rfl, foldl_max_mem x xs, ?_⟩
    intro b hb
    rcases List.mem_cons.mp hb with rfl | hb
    · exact (le_foldl_max b xs).1
    · exact (le_foldl_max x xs).2 b hb

lemma foldl_min_mem {α : Type*} [LinearOrder α] (x : α) (l : List α) :
    l.foldl min x ∈ x :: l := by
  induction l generalizing x with
  | nil => simp
  | cons y ys ih =>
    have h := ih (min x y)
    simp only [List.foldl_cons]
    rcases min_choice x y with hc | hc <;> rw [hc] at h ⊢ <;>
      simp only [List.mem_cons] at h ⊢ <;> tauto

lemma foldl_min_le {α : Type*} [LinearOrder α] (x : α) (l : List α) :
    l.foldl min x ≤ x ∧ ∀ b ∈ l, l.foldl min x ≤ b := by
  induction l generalizing x with
  | nil => simp
  | cons y ys ih =>
    have h := ih (min x y)
    refine ⟨le_trans h.1 (min_le_left x y), ?_⟩
    intro b hb
    rcases List.mem_cons.mp hb with rfl | hb
    · exact le_trans h.1 (min_le_right x b)
    · exact h.2 b hb

/-- On a non-empty list over a linear order, `min?` returns the least
element. -/
lemma min?_spec {α : Type*} [LinearOrder α] {l : List α} (h : l ≠ []) :
    ∃ a, l.min? = some a ∧ a ∈ l ∧ ∀ b ∈ l, a ≤ b := by
  cases l with
  | nil => exact absurd rfl h
  | cons x xs =>
    refine ⟨xs.foldl min x, rfl, foldl_min_mem x xs, ?_⟩
    intro b hb
    rcases List.mem_cons.mp hb with rfl | hb
    · exact (foldl_min_le b xs).1
    · exact (foldl_min_le x xs).2 b hb

/-- `max?` of a non-empty constant-zero list is `some 0`. -/
lemma max?_eq_zero {l : List ℚ} (h : l ≠ []) (h0 : ∀ b ∈ l, b = 0) :
    l.max? = some 0 := by
  obtain ⟨a, ha, hmem, _⟩ := max?_spec h
  rw [ha, h0 a hmem]

/-- Splitting the sum of the per-row balance over a list of rows into the
per-column sums, for fixed installed capacities. -/
lemma sum_balance_split (a b c d : ℚ) (l : List Row) :
    (l.map (fun r => r.nuclear * a + r.windOffshore * b +
        r.windOnshore * c + r.solar * d - r.load)).sum =
      a * (l.map Row.nuclear).sum + b * (l.map Row.windOffshore).sum +
      c * (l.map Row.windOnshore).sum + d * (l.map Row.solar).sum -
      (l.map Row.load).sum := by
  induction l with
  | nil => simp
  | cons r rs ih => simp only [List.map_cons, List.sum_cons, ih]; ring

lemma sum_map_add' (f g : Row → ℚ) (l : List Row) :
    (l.map (fun r => f r + g r)).sum = (l.map f).sum + (l.map g).sum := by
  induction l with
  | nil => simp
  | cons r rs ih => simp only [List.map_cons, List.sum_cons, ih]; ring

/-- The evaluator's battery capacity is a finite number (never NaN) on every
non-empty slice. -/
lemma battery_capacity_isSome {w : Weights} {nf : ℚ} {rows : List Row}
    (h : rows ≠ []) : ∃ q, battery_capacity w nf rows = some q := by
  have hb : bess w nf rows ≠ [] := by
    simpa [bess] using h
  obtain ⟨s, hs, _, _⟩ := max?_spec (l := (bess w nf rows).map (fun b => max b 0))
    (by simpa using hb)
  obtain ⟨d, hd, _, _⟩ := max?_spec (l := (bess w nf rows).map (fun b => -(min b 0)))
    (by simpa using hb)
  exact ⟨max s d, by simp [battery_capacity, peak_surplus, peak_deficit, hs, hd]⟩

/-- Membership in a sliced window. -/
lemma mem_sliceTable {table : List Row} {s e : ℕ} {r : Row} :
    r ∈ sliceTable table s e ↔ r ∈ table ∧ s ≤ dayOf r ∧ dayOf r ≤ e := by
  simp [sliceTable, List.mem_filter]

/-- Every row's day is bounded by `maxDayOf` the table. -/
lemma dayOf_le_maxDayOf {table : List Row} {r : Row} (h : r ∈ table) :
    dayOf r ≤ maxDayOf table := by
  have hne : table.map dayOf ≠ [] := by
    simp only [ne_eq, List.map_eq_nil_iff]
    rintro rfl; cases h
  obtain ⟨a, ha, _, hub⟩ := max?_spec hne
  have := hub (dayOf r) (List.mem_map_of_mem dayOf h)
  simpa [maxDayOf, ha] using this

/-- Every row's day is at least `minDayOf` the table. -/
lemma minDayOf_le_dayOf {table : List Row} {r : Row} (h : r ∈ table) :
    minDayOf table ≤ dayOf r := by
  have hne : table.map dayOf ≠ [] := by
    simp only [ne_eq, List.map_eq_nil_iff]
    rintro rfl; cases h
  obtain ⟨a, ha, _, hlb⟩ := min?_spec hne
  have := hlb (dayOf r) (List.mem_map_of_mem dayOf h)
  simpa [minDayOf, ha] using this

/-- C4: on the 4-row example table with load `[100,100,100,100]`, solar
capacity factors `[0, 0.5, 1, 0.5]`, baseload capacity factor 1, weights
`{Solar: 1}` and baseload fraction `0.5`, the evaluator yields baseload
installed capacity 50, solar installed capacity 100, hourly generation
totals `[50,100,150,100]`, `bess = [-50,0,50,0]` and backup capacity 50. -/
theorem C4_worked_example :
    nuclear_installed (1/2) exampleRows = 50 ∧
    solar_installed exampleWeights (1/2) exampleRows = 100 ∧
    genTotals exampleWeights (1/2) exampleRows = [50, 100, 150, 100] ∧
    bess exampleWeights (1/2) exampleRows = [-50, 0, 50, 0] ∧
    battery_capacity exampleWeights (1/2) exampleRows = some 50 := by
  norm_num [nuclear_installed, solar_installed, genTotals, bess, bessRow,
    dfColumns, battery_capacity, peak_surplus, peak_deficit, renewableC,
    renewable_cf_weighted, solar_cf_sum, wind_onshore_cf_sum,
    wind_offshore_cf_sum, nuclear_cf_sum, total_load_energy,
    wind_onshore_installed, wind_offshore_installed,
    exampleRows, exampleWeights, List.max?, max_def, min_def]

/-- C1: on a non-empty sliced window (with the data-model invariant that
capacity factors and technology weights are non-negative), baseload
installed capacity equals `baseloadFraction × totalLoadEnergy` divided by
the baseload capacity-factor sum (zero when that sum is zero), and each
renewable technology's installed capacity equals its weight times
`C = (1 − baseloadFraction) × totalLoadEnergy / weightedCF` (with `C = 0`
when `weightedCF` is zero). -/
theorem C1_installed_capacities (w : Weights) (nf : ℚ) (rows : List Row)
    (hne : rows ≠ [])
    (hcf : ∀ r ∈ rows, 0 ≤ r.nuclear ∧ 0 ≤ r.solar ∧
      0 ≤ r.windOnshore ∧ 0 ≤ r.windOffshore)
    (hw : 0 ≤ w.solar ∧ 0 ≤ w.windOnshore ∧ 0 ≤ w.windOffshore) :
    (nuclear_cf_sum rows = 0 → nuclear_installed nf rows = 0) ∧
    (nuclear_cf_sum rows ≠ 0 →
      nuclear_installed nf rows =
        nf * total_load_energy rows / nuclear_cf_sum rows) ∧
    (renewable_cf_weighted w rows = 0 →
      solar_installed w nf rows = 0 ∧
      wind_onshore_installed w nf rows = 0 ∧
      wind_offshore_installed w nf rows = 0) ∧
    (renewable_cf_weighted w rows ≠ 0 →
      solar_installed w nf rows =
        w.solar * ((1 - nf) * total_load_energy rows /
          renewable_cf_weighted w rows) ∧
      wind_onshore_installed w nf rows =
        w.windOnshore * ((1 - nf) * total_load_energy rows /
          renewable_cf_weighted w rows) ∧
      wind_offshore_installed w nf rows =
        w.windOffshore * ((1 - nf) * total_load_energy rows /
          renewable_cf_weighted w rows)) := by
  have hn0 : 0 ≤ nuclear_cf_sum rows := by
    refine List.sum_nonneg ?_
    intro x hx
    obtain ⟨r, hr, rfl⟩ := List.mem_map.mp hx
    exact (hcf r hr).1
  have hsum_nonneg : ∀ (f : Row → ℚ), (∀ r ∈ rows, 0 ≤ f r) →
      0 ≤ (rows.map f).sum := by
    intro f hf
    refine List.sum_nonneg ?_
    intro x hx
    obtain ⟨r, hr, rfl⟩ := List.mem_map.mp hx
    exact hf r hr
  have hw0 : 0 ≤ renewable_cf_weighted w rows := by
    have h1 : 0 ≤ w.solar * solar_cf_sum rows :=
      mul_nonneg hw.1 (hsum_nonneg _ (fun r hr => (hcf r hr).2.1))
    have h2 : 0 ≤ w.windOnshore * wind_onshore_cf_sum rows :=
      mul_nonneg hw.2.1 (hsum_nonneg _ (fun r hr => (hcf r hr).2.2.1))
    have h3 : 0 ≤ w.windOffshore * wind_offshore_cf_sum rows :=
      mul_nonneg hw.2.2 (hsum_nonneg _ (fun r hr => (hcf r hr).2.2.2))
    unfold renewable_cf_weighted
    linarith
  refine ⟨?_, ?_, ?_, ?_⟩
  · intro h
    simp [nuclear_installed, h]
  · intro h
    have : 0 < nuclear_cf_sum rows := lt_of_le_of_ne hn0 (Ne.symm h)
    simp [nuclear_installed, this]
  · intro h
    simp [solar_installed, wind_onshore_installed, wind_offshore_installed,
      renewableC, h]
  · intro h
    have : 0 < renewable_cf_weighted w rows := lt_of_le_of_ne hw0 (Ne.symm h)
    simp [solar_installed, wind_onshore_installed, wind_offshore_installed,
      renewableC, this]

theorem C1_installed_capacities_witness :
    (exampleRows ≠ [] ∧
     (∀ r ∈ exampleRows, 0 ≤ r.nuclear ∧ 0 ≤ r.solar ∧
       0 ≤ r.windOnshore ∧ 0 ≤ r.windOffshore) ∧
     (0 ≤ exampleWeights.solar ∧ 0 ≤ exampleWeights.windOnshore ∧
       0 ≤ exampleWeights.windOffshore)) ∧
    ((nuclear_cf_sum exampleRows = 0 →
        nuclear_installed (1/2) exampleRows = 0) ∧
     (nuclear_cf_sum exampleRows ≠ 0 →
        nuclear_installed (1/2) exampleRows =
          (1/2) * total_load_energy exampleRows / nuclear_cf_sum exampleRows) ∧
     (renewable_cf_weighted exampleWeights exampleRows = 0 →
        solar_installed exampleWeights (1/2) exampleRows = 0 ∧
        wind_onshore_installed exampleWeights (1/2) exampleRows = 0 ∧
        wind_offshore_installed exampleWeights (1/2) exampleRows = 0) ∧
     (renewable_cf_weighted exampleWeights exampleRows ≠ 0 →
        solar_installed exampleWeights (1/2) exampleRows =
          exampleWeights.solar * ((1 - 1/2) * total_load_energy exampleRows /
            renewable_cf_weighted exampleWeights exampleRows) ∧
        wind_onshore_installed exampleWeights (1/2) exampleRows =
          exampleWeights.windOnshore *
            ((1 - 1/2) * total_load_energy exampleRows /
              renewable_cf_weighted exampleWeights exampleRows) ∧
        wind_offshore_installed exampleWeights (1/2) exampleRows =
          exampleWeights.windOffshore *
            ((1 - 1/2) * total_load_energy exampleRows /
              renewable_cf_weighted exampleWeights exampleRows))) :=
  ⟨⟨by simp [exampleRows],
    by intro r hr; fin_cases hr <;> norm_num [exampleRows],
    by norm_num [exampleWeights]⟩,
   C1_installed_capacities exampleWeights (1/2) exampleRows
     (by simp [exampleRows])
     (by intro r hr; fin_cases hr <;> norm_num [exampleRows])
     (by norm_num [exampleWeights])⟩

/-- C3: on a non-empty sliced window the net-balance series `bess` maps
every hourly row to the sum over all technologies (baseload and the three
renewables) of capacity factor × installed capacity, minus the load of that
hour. -/
theorem C3_bess_is_generation_minus_load (w : Weights) (nf : ℚ)
    (rows : List Row) (hne : rows ≠ []) :
    bess w nf rows = rows.map (fun r =>
      (r.nuclear * nuclear_installed nf rows +
       r.windOffshore * wind_offshore_installed w nf rows +
       r.windOnshore * wind_onshore_installed w nf rows +
       r.solar * solar_installed w nf rows) - r.load) := by
  unfold bess bessRow dfColumns
  congr 1
  funext r
  simp only [List.sum_cons, List.sum_nil]
  ring

theorem C3_bess_is_generation_minus_load_witness :
    exampleRows ≠ [] ∧
    bess exampleWeights (1/2) exampleRows = exampleRows.map (fun r =>
      (r.nuclear * nuclear_installed (1/2) exampleRows +
       r.windOffshore * wind_offshore_installed exampleWeights (1/2) exampleRows +
       r.windOnshore * wind_onshore_installed exampleWeights (1/2) exampleRows +
       r.solar * solar_installed exampleWeights (1/2) exampleRows) - r.load) :=
  ⟨by simp [exampleRows],
   C3_bess_is_generation_minus_load exampleWeights (1/2) exampleRows
     (by simp [exampleRows])⟩

/-- C6 counterexample: on the worked example at hour 0 the net balance is
`bess = -50` but the stored Storage-consumption-requirement value is `50`,
which is neither `min(bess, 0) = -50` nor `≤ 0` — the code stores
`-bess.clip(upper=0) = -min(bess, 0) ≥ 0`, refuting the claimed negative
sign convention. -/
theorem C6_counterexample :
    (storage_consumption exampleWeights (1/2) exampleRows).head? = some 50 ∧
    (bess exampleWeights (1/2) exampleRows).head? = some (-50) ∧
    min (-50 : ℚ) 0 = -50 ∧ ¬ ((50 : ℚ) ≤ 0) := by
  norm_num [storage_consumption, bess, bessRow, dfColumns,
    nuclear_installed, solar_installed, wind_onshore_installed,
    wind_offshore_installed, renewableC, renewable_cf_weighted,
    solar_cf_sum, wind_onshore_cf_sum, wind_offshore_cf_sum,
    nuclear_cf_sum, total_load_energy, exampleRows, exampleWeights,
    min_def]

/-- C6 amended: for every non-empty sliced window and every hour, the
stored Storage-consumption-requirement value equals `−min(bess[hour], 0)`,
so the series is `≥ 0` at every hour (the deficit recorded with positive
sign, the negation of the claimed convention). -/
theorem C6_storage_consumption_nonneg (w : Weights) (nf : ℚ)
    (rows : List Row) (hne : rows ≠ []) :
    storage_consumption w nf rows =
      (bess w nf rows).map (fun b => -(min b 0)) ∧
    ∀ v ∈ storage_consumption w nf rows, 0 ≤ v := by
  refine ⟨rfl, ?_⟩
  intro v hv
  obtain ⟨b, _, rfl⟩ := List.mem_map.mp hv
  have : min b 0 ≤ 0 := min_le_right b 0
  linarith

theorem C6_storage_consumption_nonneg_witness :
    exampleRows ≠ [] ∧
    (storage_consumption exampleWeights (1/2) exampleRows =
      (bess exampleWeights (1/2) exampleRows).map (fun b => -(min b 0)) ∧
     ∀ v ∈ storage_consumption exampleWeights (1/2) exampleRows, 0 ≤ v) :=
  ⟨by simp [exampleRows],
   C6_storage_consumption_nonneg exampleWeights (1/2) exampleRows
     (by simp [exampleRows])⟩

/-- C10: on every non-empty sliced window the two derived storage series
are the pointwise maps `−max(bess, 0)` and `−min(bess, 0)` of the net
balance, and at every hour Storage potential `≤ 0`, Storage consumption
requirement `≥ 0`, the two sum to `−bess`, and at least one of the two is
zero. -/
theorem C10_storage_series_invariants (w : Weights) (nf : ℚ)
    (rows : List Row) (hne : rows ≠ []) :
    storage_potential w nf rows =
      (bess w nf rows).map (fun b => -(max b 0)) ∧
    storage_consumption w nf rows =
      (bess w nf rows).map (fun b => -(min b 0)) ∧
    ∀ b ∈ bess w nf rows,
      -(max b 0) ≤ 0 ∧ 0 ≤ -(min b 0) ∧
      -(max b 0) + -(min b 0) = -b ∧
      (-(max b 0) = 0 ∨ -(min b 0) = 0) := by
  refine ⟨rfl, rfl, ?_⟩
  intro b _
  have hmax : 0 ≤ max b 0 := le_max_right b 0
  have hmin : min b 0 ≤ 0 := min_le_right b 0
  have hsum : max b 0 + min b 0 = b + 0 := max_add_min b 0
  refine ⟨by linarith, by linarith, by linarith, ?_⟩
  rcases le_or_lt b 0 with hb | hb
  · left
    simp [max_eq_right hb]
  · right
    simp [min_eq_right hb.le]

theorem C10_storage_series_invariants_witness :
    exampleRows ≠ [] ∧
    (storage_potential exampleWeights (1/2) exampleRows =
      (bess exampleWeights (1/2) exampleRows).map (fun b => -(max b 0)) ∧
     storage_consumption exampleWeights (1/2) exampleRows =
      (bess exampleWeights (1/2) exampleRows).map (fun b => -(min b 0)) ∧
     ∀ b ∈ bess exampleWeights (1/2) exampleRows,
      -(max b 0) ≤ 0 ∧ 0 ≤ -(min b 0) ∧
      -(max b 0) + -(min b 0) = -b ∧
      (-(max b 0) = 0 ∨ -(min b 0) = 0)) :=
  ⟨by simp [exampleRows],
   C10_storage_series_invariants exampleWeights (1/2) exampleRows
     (by simp [exampleRows])⟩

/-- C2: on every non-empty sliced window the battery capacity equals
`max(peak surplus, peak deficit)` with both peaks finite, it is `≥ 0`, and
it equals zero when total generation equals load at every hour of the
window. -/
theorem C2_battery_capacity_spec (w : Weights) (nf : ℚ) (rows : List Row)
    (hne : rows ≠ []) :
    (∃ s d, peak_surplus w nf rows = some s ∧
      peak_deficit w nf rows = some d ∧
      battery_capacity w nf rows = some (max s d) ∧ 0 ≤ max s d) ∧
    ((∀ r ∈ rows, (dfColumns w nf rows r).sum = r.load) →
      battery_capacity w nf rows = some 0) := by
  have hb : bess w nf rows ≠ [] := by simpa [bess] using hne
  constructor
  · obtain ⟨s, hs, hsmem, _⟩ :=
      max?_spec (l := (bess w nf rows).map (fun b => max b 0))
        (by simpa using hb)
    obtain ⟨d, hd, _, _⟩ :=
      max?_spec (l := (bess w nf rows).map (fun b => -(min b 0)))
        (by simpa using hb)
    obtain ⟨b, _, rfl⟩ := List.mem_map.mp hsmem
    have h0 : (0 : ℚ) ≤ max b 0 := le_max_right b 0
    exact ⟨max b 0, d, by simpa [peak_surplus] using hs,
      by simpa [peak_deficit] using hd,
      by simp [battery_capacity, peak_surplus, peak_deficit, hs, hd],
      le_trans h0 (le_max_left _ d)⟩
  · intro hgen
    have hzero : ∀ b ∈ bess w nf rows, b = 0 := by
      intro b hbm
      obtain ⟨r, hr, rfl⟩ := List.mem_map.mp hbm
      simp [bessRow, hgen r hr]
    have hs : ((bess w nf rows).map (fun b => max b 0)).max? = some 0 := by
      refine max?_eq_zero (by simpa using hb) ?_
      intro x hx
      obtain ⟨b, hbm, rfl⟩ := List.mem_map.mp hx
      simp [hzero b hbm]
    have hd : ((bess w nf rows).map (fun b => -(min b 0))).max? = some 0 := by
      refine max?_eq_zero (by simpa using hb) ?_
      intro x hx
      obtain ⟨b, hbm, rfl⟩ := List.mem_map.mp hx
      simp [hzero b hbm]
    simp [battery_capacity, peak_surplus, peak_deficit, hs, hd]

theorem C2_battery_capacity_spec_witness :
    exampleRows ≠ [] ∧
    ((∃ s d, peak_surplus exampleWeights (1/2) exampleRows = some s ∧
       peak_deficit exampleWeights (1/2) exampleRows = some d ∧
       battery_capacity exampleWeights (1/2) exampleRows = some (max s d) ∧
       0 ≤ max s d) ∧
     ((∀ r ∈ exampleRows,
        (dfColumns exampleWeights (1/2) exampleRows r).sum = r.load) →
       battery_capacity exampleWeights (1/2) exampleRows = some 0)) :=
  ⟨by simp [exampleRows],
   C2_battery_capacity_spec exampleWeights (1/2) exampleRows
     (by simp [exampleRows])⟩

/-- C9: on a non-empty sliced window with strictly positive baseload
capacity-factor sum and strictly positive weighted renewable
capacity-factor sum, and any baseload fraction in `[0,1]`, total generated
energy equals total load energy exactly — equivalently the `bess` series
sums to zero. -/
theorem C9_energy_conservation (w : Weights) (nf : ℚ) (rows : List Row)
    (hne : rows ≠ []) (hnf : 0 ≤ nf ∧ nf ≤ 1)
    (hn : 0 < nuclear_cf_sum rows)
    (hr : 0 < renewable_cf_weighted w rows) :
    (bess w nf rows).sum = 0 ∧
    (genTotals w nf rows).sum = total_load_energy rows := by
  have hb : bess w nf rows = rows.map (fun r =>
      r.nuclear * nuclear_installed nf rows +
      r.windOffshore * wind_offshore_installed w nf rows +
      r.windOnshore * wind_onshore_installed w nf rows +
      r.solar * solar_installed w nf rows - r.load) := by
    unfold bess bessRow dfColumns
    congr 1
    funext r
    simp only [List.sum_cons, List.sum_nil]
    ring
  have hsum0 : (bess w nf rows).sum = 0 := by
    rw [hb, sum_balance_split]
    have hn' : nuclear_cf_sum rows ≠ 0 := ne_of_gt hn
    have hr' : renewable_cf_weighted w rows ≠ 0 := ne_of_gt hr
    have hni : nuclear_installed nf rows =
        nf * total_load_energy rows / nuclear_cf_sum rows := by
      simp [nuclear_installed, hn]
    have hC : renewableC w nf rows =
        (1 - nf) * total_load_energy rows / renewable_cf_weighted w rows := by
      simp [renewableC, hr]
    have hrw : renewable_cf_weighted w rows =
        w.solar * solar_cf_sum rows +
        w.windOnshore * wind_onshore_cf_sum rows +
        w.windOffshore * wind_offshore_cf_sum rows := rfl
    show nuclear_installed nf rows * (rows.map Row.nuclear).sum +
        wind_offshore_installed w nf rows * (rows.map Row.windOffshore).sum +
        wind_onshore_installed w nf rows * (rows.map Row.windOnshore).sum +
        solar_installed w nf rows * (rows.map Row.solar).sum -
        (rows.map Row.load).sum = 0
    have e1 : (rows.map Row.nuclear).sum = nuclear_cf_sum rows := rfl
    have e2 : (rows.map Row.windOffshore).sum = wind_offshore_cf_sum rows := rfl
    have e3 : (rows.map Row.windOnshore).sum = wind_onshore_cf_sum rows := rfl
    have e4 : (rows.map Row.solar).sum = solar_cf_sum rows := rfl
    have e5 : (rows.map Row.load).sum = total_load_energy rows := rfl
    rw [e1, e2, e3, e4, e5]
    unfold solar_installed wind_onshore_installed wind_offshore_installed
    rw [hni, hC]
    rw [hrw] at hr' ⊢
    field_simp
    ring
  refine ⟨hsum0, ?_⟩
  have hg : genTotals w nf rows =
      rows.map (fun r => bessRow w nf rows r + r.load) := by
    unfold genTotals bessRow
    congr 1
    funext r
    ring
  rw [hg, sum_map_add' (bessRow w nf rows) Row.load rows]
  have : (rows.map (bessRow w nf rows)).sum = 0 := hsum0
  rw [this]
  simp [total_load_energy]

theorem C9_energy_conservation_witness :
    (exampleRows ≠ [] ∧ ((0:ℚ) ≤ 1/2 ∧ (1:ℚ)/2 ≤ 1) ∧
     0 < nuclear_cf_sum exampleRows ∧
     0 < renewable_cf_weighted exampleWeights exampleRows) ∧
    ((bess exampleWeights (1/2) exampleRows).sum = 0 ∧
     (genTotals exampleWeights (1/2) exampleRows).sum =
       total_load_energy exampleRows) :=
  ⟨⟨by simp [exampleRows], by norm_num,
    by norm_num [nuclear_cf_sum, exampleRows],
    by norm_num [renewable_cf_weighted, solar_cf_sum, wind_onshore_cf_sum,
      wind_offshore_cf_sum, exampleRows, exampleWeights]⟩,
   C9_energy_conservation exampleWeights (1/2) exampleRows
     (by simp [exampleRows]) (by norm_num)
     (by norm_num [nuclear_cf_sum, exampleRows])
     (by norm_num [renewable_cf_weighted, solar_cf_sum, wind_onshore_cf_sum,
       wind_offshore_cf_sum, exampleRows, exampleWeights])⟩

lemma sum_map_scale (k : ℚ) (f : Row → ℚ) (l : List Row) :
    (l.map (fun r => k * f r)).sum = k * (l.map f).sum := by
  induction l with
  | nil => simp
  | cons r rs ih => simp only [List.map_cons, List.sum_cons, ih]; ring

lemma nuclear_cf_sum_scale (k : ℚ) (rows : List Row) :
    nuclear_cf_sum (scaleTable k rows) = k * nuclear_cf_sum rows := by
  unfold nuclear_cf_sum scaleTable
  rw [List.map_map]
  exact sum_map_scale k Row.nuclear rows

lemma solar_cf_sum_scale (k : ℚ) (rows : List Row) :
    solar_cf_sum (scaleTable k rows) = k * solar_cf_sum rows := by
  unfold solar_cf_sum scaleTable
  rw [List.map_map]
  exact sum_map_scale k Row.solar rows

lemma wind_onshore_cf_sum_scale (k : ℚ) (rows : List Row) :
    wind_onshore_cf_sum (scaleTable k rows) =
      k * wind_onshore_cf_sum rows := by
  unfold wind_onshore_cf_sum scaleTable
  rw [List.map_map]
  exact sum_map_scale k Row.windOnshore rows

lemma wind_offshore_cf_sum_scale (k : ℚ) (rows : List Row) :
    wind_offshore_cf_sum (scaleTable k rows) =
      k * wind_offshore_cf_sum rows := by
  unfold wind_offshore_cf_sum scaleTable
  rw [List.map_map]
  exact sum_map_scale k Row.windOffshore rows

lemma total_load_energy_scale (k : ℚ) (rows : List Row) :
    total_load_energy (scaleTable k rows) = total_load_energy rows := by
  unfold total_load_energy scaleTable
  rw [List.map_map]
  rfl

lemma renewable_cf_weighted_scale (w : Weights) (k : ℚ) (rows : List Row) :
    renewable_cf_weighted w (scaleTable k rows) =
      k * renewable_cf_weighted w rows := by
  unfold renewable_cf_weighted
  rw [solar_cf_sum_scale, wind_onshore_cf_sum_scale,
    wind_offshore_cf_sum_scale]
  ring

lemma nuclear_installed_scale (nf k : ℚ) (rows : List Row) (hk : 0 < k) :
    nuclear_installed nf (scaleTable k rows) =
      (1/k) * nuclear_installed nf rows := by
  have hk' : k ≠ 0 := ne_of_gt hk
  unfold nuclear_installed
  rw [nuclear_cf_sum_scale, total_load_energy_scale]
  by_cases hn : 0 < nuclear_cf_sum rows
  · rw [if_pos (mul_pos hk hn), if_pos hn]
    have hn' : nuclear_cf_sum rows ≠ 0 := ne_of_gt hn
    field_simp
  · rw [if_neg ?_, if_neg hn]
    · ring
    · intro hc
      exact hn ((mul_pos_iff_of_pos_left hk).mp hc)

lemma renewableC_scale (w : Weights) (nf k : ℚ) (rows : List Row)
    (hk : 0 < k) :
    renewableC w nf (scaleTable k rows) = (1/k) * renewableC w nf rows := by
  have hk' : k ≠ 0 := ne_of_gt hk
  unfold renewableC
  rw [renewable_cf_weighted_scale, total_load_energy_scale]
  by_cases hr : 0 < renewable_cf_weighted w rows
  · rw [if_pos (mul_pos hk hr), if_pos hr]
    have hr' : renewable_cf_weighted w rows ≠ 0 := ne_of_gt hr
    field_simp
  · rw [if_neg ?_, if_neg hr]
    · ring
    · intro hc
      exact hr ((mul_pos_iff_of_pos_left hk).mp hc)

/-- C7: for every table, non-empty window, weights, baseload fraction and
constant `k > 0`, scaling every capacity-factor column by `k` scales every
installed capacity (baseload and each renewable) by `1/k` and leaves the
hourly generation profile unchanged. -/
theorem C7_cf_scaling_invariance (w : Weights) (nf k : ℚ) (rows : List Row)
    (hne : rows ≠ []) (hk : 0 < k) :
    nuclear_installed nf (scaleTable k rows) =
      (1/k) * nuclear_installed nf rows ∧
    solar_installed w nf (scaleTable k rows) =
      (1/k) * solar_installed w nf rows ∧
    wind_onshore_installed w nf (scaleTable k rows) =
      (1/k) * wind_onshore_installed w nf rows ∧
    wind_offshore_installed w nf (scaleTable k rows) =
      (1/k) * wind_offshore_installed w nf rows ∧
    genProfile w nf (scaleTable k rows) = genProfile w nf rows := by
  have hk' : k ≠ 0 := ne_of_gt hk
  have hni := nuclear_installed_scale nf k rows hk
  have hC := renewableC_scale w nf k rows hk
  have hsi : solar_installed w nf (scaleTable k rows) =
      (1/k) * solar_installed w nf rows := by
    unfold solar_installed
    rw [hC]
    ring
  have honi : wind_onshore_installed w nf (scaleTable k rows) =
      (1/k) * wind_onshore_installed w nf rows := by
    unfold wind_onshore_installed
    rw [hC]
    ring
  have hoffi : wind_offshore_installed w nf (scaleTable k rows) =
      (1/k) * wind_offshore_installed w nf rows := by
    unfold wind_offshore_installed
    rw [hC]
    ring
  refine ⟨hni, hsi, honi, hoffi, ?_⟩
  have hcol : ∀ r : Row, dfColumns w nf (scaleTable k rows) (scaleCF k r) =
      dfColumns w nf rows r := by
    intro r
    unfold dfColumns scaleCF
    rw [hni, hsi, honi, hoffi]
    simp only [List.cons.injEq, and_true]
    refine ⟨?_, ?_, ?_, ?_⟩ <;> field_simp <;> ring
  calc genProfile w nf (scaleTable k rows)
      = (rows.map (scaleCF k)).map
          (fun r => dfColumns w nf (scaleTable k rows) r) := rfl
    _ = rows.map
          (fun r => dfColumns w nf (scaleTable k rows) (scaleCF k r)) := by
        rw [List.map_map]
        rfl
    _ = rows.map (fun r => dfColumns w nf rows r) := by
        congr 1
        funext r
        exact hcol r
    _ = genProfile w nf rows := rfl

theorem C7_cf_scaling_invariance_witness :
    (exampleRows ≠ [] ∧ (0:ℚ) < 2) ∧
    (nuclear_installed (1/2) (scaleTable 2 exampleRows) =
      (1/2) * nuclear_installed (1/2) exampleRows ∧
     solar_installed exampleWeights (1/2) (scaleTable 2 exampleRows) =
      (1/2) * solar_installed exampleWeights (1/2) exampleRows ∧
     wind_onshore_installed exampleWeights (1/2) (scaleTable 2 exampleRows) =
      (1/2) * wind_onshore_installed exampleWeights (1/2) exampleRows ∧
     wind_offshore_installed exampleWeights (1/2) (scaleTable 2 exampleRows) =
      (1/2) * wind_offshore_installed exampleWeights (1/2) exampleRows ∧
     genProfile exampleWeights (1/2) (scaleTable 2 exampleRows) =
      genProfile exampleWeights (1/2) exampleRows) :=
  ⟨⟨by simp [exampleRows], by norm_num⟩,
   by
    have h := C7_cf_scaling_invariance exampleWeights (1/2) 2 exampleRows
      (by simp [exampleRows]) (by norm_num)
    simpa using h⟩

/-- C5 counterexample: requesting the inverted window `[5, 2]` on the
worked example produces an empty slice, yet the evaluator raises no typed
`InvalidWindow`/`EmptyInput` failure: it returns the numeric installed
capacities 0 and a NaN (`none`) backup capacity. -/
theorem C5_counterexample :
    sliceTable exampleRows 5 2 = [] ∧
    nuclear_installed (1/2) (sliceTable exampleRows 5 2) = 0 ∧
    solar_installed exampleWeights (1/2) (sliceTable exampleRows 5 2) = 0 ∧
    battery_capacity exampleWeights (1/2) (sliceTable exampleRows 5 2) =
      none := by
  have h : sliceTable exampleRows 5 2 = [] := by
    simp [sliceTable, exampleRows, dayOf]
  rw [h]
  refine ⟨rfl, ?_, ?_, ?_⟩ <;>
    simp [nuclear_installed, nuclear_cf_sum, solar_installed, renewableC,
      renewable_cf_weighted, solar_cf_sum, wind_onshore_cf_sum,
      wind_offshore_cf_sum, total_load_energy, battery_capacity,
      peak_surplus, peak_deficit, bess]

/-- C5 amended: on `start > end` (or any window whose slice is empty) the
evaluator raises no typed error — the slice is empty, every installed
capacity comes out as the number 0, and the backup capacity is the NaN of
an empty `max` (modelled `none`); no `InvalidWindow`/`EmptyInput` error
values exist in the code. -/
theorem C5_empty_slice_yields_values (table : List Row) (w : Weights)
    (nf : ℚ) (s e : ℕ)
    (h : e < s ∨ sliceTable table s e = []) :
    sliceTable table s e = [] ∧
    nuclear_installed nf (sliceTable table s e) = 0 ∧
    solar_installed w nf (sliceTable table s e) = 0 ∧
    wind_onshore_installed w nf (sliceTable table s e) = 0 ∧
    wind_offshore_installed w nf (sliceTable table s e) = 0 ∧
    battery_capacity w nf (sliceTable table s e) = none := by
  have hempty : sliceTable table s e = [] := by
    rcases h with h | h
    · unfold sliceTable
      rw [List.filter_eq_nil_iff]
      intro r _
      simp only [Bool.and_eq_true, decide_eq_true_eq, not_and]
      omega
    · exact h
  rw [hempty]
  refine ⟨rfl, ?_, ?_, ?_, ?_, ?_⟩ <;>
    simp [nuclear_installed, nuclear_cf_sum, solar_installed,
      wind_onshore_installed, wind_offshore_installed, renewableC,
      renewable_cf_weighted, solar_cf_sum, wind_onshore_cf_sum,
      wind_offshore_cf_sum, total_load_energy, battery_capacity,
      peak_surplus, peak_deficit, bess]

theorem C5_empty_slice_yields_values_witness :
    ((2 : ℕ) < 5 ∨ sliceTable exampleRows 5 2 = []) ∧
    (sliceTable exampleRows 5 2 = [] ∧
     nuclear_installed (1/2) (sliceTable exampleRows 5 2) = 0 ∧
     solar_installed exampleWeights (1/2) (sliceTable exampleRows 5 2) = 0 ∧
     wind_onshore_installed exampleWeights (1/2)
       (sliceTable exampleRows 5 2) = 0 ∧
     wind_offshore_installed exampleWeights (1/2)
       (sliceTable exampleRows 5 2) = 0 ∧
     battery_capacity exampleWeights (1/2) (sliceTable exampleRows 5 2) =
       none) :=
  ⟨Or.inl (by norm_num),
   C5_empty_slice_yields_values exampleRows exampleWeights (1/2) 5 2
     (Or.inl (by norm_num))⟩

/-- C8: when the requested start date lies within the table's index and the
requested end date is past the table's last timestamp, `update_graph` clips
the end to the last data day, reports the adjusted window (with a warning),
and evaluation proceeds on the non-empty clipped slice — which contains
every row from the start day through the last timestamp — returning a
finite backup capacity rather than any error. -/
theorem C8_end_clip_returns_result (table : List Row) (w : Weights)
    (nf : ℚ) (startDay duration : ℕ)
    (hmem : ∃ r ∈ table, dayOf r = startDay)
    (hover : maxDayOf table < startDay + duration) :
    (clipWindow startDay duration (minDayOf table)
      (maxDayOf table)).startDay = startDay ∧
    (clipWindow startDay duration (minDayOf table)
      (maxDayOf table)).endDay = maxDayOf table ∧
    (clipWindow startDay duration (minDayOf table)
      (maxDayOf table)).warned = true ∧
    sliceTable table startDay (maxDayOf table) ≠ [] ∧
    (∃ q, battery_capacity w nf
      (sliceTable table startDay (maxDayOf table)) = some q) ∧
    (∀ r ∈ table, startDay ≤ dayOf r →
      r ∈ sliceTable table startDay (maxDayOf table)) := by
  obtain ⟨r0, hr0, hday⟩ := hmem
  have hmin : minDayOf table ≤ startDay := hday ▸ minDayOf_le_dayOf hr0
  have hnotlt : ¬ startDay < minDayOf table := not_lt.mpr hmin
  have hclip : clipWindow startDay duration (minDayOf table)
      (maxDayOf table) = ⟨startDay, maxDayOf table, true⟩ := by
    unfold clipWindow
    simp [hover, hnotlt]
  have hmemslice : ∀ r ∈ table, startDay ≤ dayOf r →
      r ∈ sliceTable table startDay (maxDayOf table) := by
    intro r hr hle
    exact mem_sliceTable.mpr ⟨hr, hle, dayOf_le_maxDayOf hr⟩
  have hne : sliceTable table startDay (maxDayOf table) ≠ [] := by
    have hin : r0 ∈ sliceTable table startDay (maxDayOf table) :=
      hmemslice r0 hr0 (le_of_eq hday.symm)
    intro hnil
    rw [hnil] at hin
    cases hin
  exact ⟨by rw [hclip], by rw [hclip], by rw [hclip], hne,
    battery_capacity_isSome hne, hmemslice⟩

theorem C8_end_clip_returns_result_witness :
    ((∃ r ∈ exampleRows, dayOf r = 0) ∧
      maxDayOf exampleRows < 0 + 7) ∧
    ((clipWindow 0 7 (minDayOf exampleRows)
       (maxDayOf exampleRows)).startDay = 0 ∧
     (clipWindow 0 7 (minDayOf exampleRows)
       (maxDayOf exampleRows)).endDay = maxDayOf exampleRows ∧
     (clipWindow 0 7 (minDayOf exampleRows)
       (maxDayOf exampleRows)).warned = true ∧
     sliceTable exampleRows 0 (maxDayOf exampleRows) ≠ [] ∧
     (∃ q, battery_capacity exampleWeights (1/2)
       (sliceTable exampleRows 0 (maxDayOf exampleRows)) = some q) ∧
     (∀ r ∈ exampleRows, 0 ≤ dayOf r →
       r ∈ sliceTable exampleRows 0 (maxDayOf exampleRows))) := by
  have h1 : ∃ r ∈ exampleRows, dayOf r = 0 :=
    ⟨⟨0, 100, 1, 0, 0, 0⟩, by simp [exampleRows], rfl⟩
  have h2 : maxDayOf exampleRows < 0 + 7 := by
    norm_num [maxDayOf, dayOf, exampleRows, List.max?]
  exact ⟨⟨h1, h2⟩,
    C8_end_clip_returns_result exampleRows exampleWeights (1/2) 0 7 h1 h2⟩

end EnergyMix
